import Mathlib

/-!
# Verification of the Aurora OS.js filesystem core

Shallow embedding of `src/components/FileSystemContext.tsx` (path resolution,
permission-gated tree queries and mutations, identity sync, login) together
with the helpers it imports from `utils/fileSystemUtils.ts`.  The helper
module itself is not part of the provided sources, so those helpers
(`checkPermissions`, `octalToPermissions`, `parsePasswd`, `formatPasswd`,
`parseGroup`, `formatGroup`) are modelled from the specification; every
definition modelled that way carries a doc comment starting with
`Modelled from the spec:`.

React state is modelled as an explicit `FSState` record threaded through the
operations.  Each operation mirrors the source callback: validation reads the
current state snapshot, and every enqueued `setFileSystem` updater is applied
in call order.  `deepCloneFileSystem` / `deepCloneFileNode` are identities in
a functional model.  `crypto.randomUUID()` and `new Date()` are threaded in
as explicit `newId` / `now` parameters.  A JavaScript `TypeError` thrown by
an updater (reading `.children` of `undefined` after a non-null assertion)
is represented by `Except.error ()`.
-/

namespace Aurora

/-! ## JavaScript string primitives, as char-list functions -/

/-- JS `s.startsWith(p)`. -/
def jsStartsWith (s p : String) : Bool := p.data.isPrefixOf s.data

/-- JS `s.endsWith(p)`. -/
def jsEndsWith (s p : String) : Bool := p.data.isSuffixOf s.data

/-- JS `s.slice(n)` / dropping the first `n` characters. -/
def jsDrop (s : String) (n : Nat) : String := ⟨s.data.drop n⟩

/-- JS `s.split(sep)` for a single-character separator, on char lists:
`[] ↦ [[]]`, and each separator character starts a new field. -/
def splitCharList (sep : Char) : List Char → List (List Char)
  | [] => [[]]
  | c :: rest =>
    if c = sep then [] :: splitCharList sep rest
    else
      match splitCharList sep rest with
      | [] => [[c]]
      | s :: ss => (c :: s) :: ss

/-- JS `s.split(sep)` for a single-character separator. -/
def jsSplit (sep : Char) (s : String) : List String :=
  (splitCharList sep s.data).map (fun l => ⟨l⟩)

/-! ## Data model (`FileNode`, `User`, `Group` from `fileSystemUtils.ts`) -/

structure User where
  username : String
  password : Option String
  uid : Nat
  gid : Nat
  fullName : String
  homeDir : String
  shell : String
  groups : Option (List String)
deriving Repr, DecidableEq

structure Group where
  groupName : String
  password : Option String
  gid : Nat
  members : List String
deriving Repr, DecidableEq

/-- A filesystem tree node.  `ntype` is the source's `type` field (the string
`"file"` or `"directory"`); optional fields are `Option`s, matching
`undefined`-ability in the source.  `modified` timestamps are opaque `Nat`s. -/
inductive FileNode where
  | mk (id : String) (name : String) (ntype : String) (content : Option String)
       (children : Option (List FileNode)) (permissions : Option String)
       (owner : Option String) (group : Option String)
       (size : Option Nat) (modified : Option Nat) : FileNode

namespace FileNode

def id : FileNode → String | .mk i _ _ _ _ _ _ _ _ _ => i
def name : FileNode → String | .mk _ n _ _ _ _ _ _ _ _ => n
def ntype : FileNode → String | .mk _ _ t _ _ _ _ _ _ _ => t
def content : FileNode → Option String | .mk _ _ _ c _ _ _ _ _ _ => c
def children : FileNode → Option (List FileNode) | .mk _ _ _ _ ch _ _ _ _ _ => ch
def permissions : FileNode → Option String | .mk _ _ _ _ _ p _ _ _ _ => p
def owner : FileNode → Option String | .mk _ _ _ _ _ _ o _ _ _ => o
def group : FileNode → Option String | .mk _ _ _ _ _ _ _ g _ _ => g
def size : FileNode → Option Nat | .mk _ _ _ _ _ _ _ _ s _ => s
def modified : FileNode → Option Nat | .mk _ _ _ _ _ _ _ _ _ m => m

def withName (nd : FileNode) (n : String) : FileNode :=
  match nd with | .mk i _ t c ch p o g s m => .mk i n t c ch p o g s m

def withChildren (nd : FileNode) (ch : Option (List FileNode)) : FileNode :=
  match nd with | .mk i n t c _ p o g s m => .mk i n t c ch p o g s m

def withPermissions (nd : FileNode) (p : Option String) : FileNode :=
  match nd with | .mk i n t c ch _ o g s m => .mk i n t c ch p o g s m

/-- Set `content`, `size` and `modified` in one step (the `writeFile` mutation). -/
def withWrite (nd : FileNode) (c : String) (now : Nat) : FileNode :=
  match nd with
  | .mk i n t _ ch p o g _ _ => .mk i n t (some c) ch p o g (some c.data.length) (some now)

/-- JS `node.children?.find(c => c.name === nm)`. -/
def findChild (nd : FileNode) (nm : String) : Option FileNode :=
  match nd.children with
  | some l => l.find? (fun c => c.name == nm)
  | none => none

end FileNode

/-- Replace the first node with the given name in a sibling list (JS mutates
the object `find` returned, i.e. the first match). -/
def replaceFirst (l : List FileNode) (nm : String) (newN : FileNode) : List FileNode :=
  match l with
  | [] => []
  | c :: cs => if c.name == nm then newN :: cs else c :: replaceFirst cs nm newN

/-! ## Session state

The provider's React state: the tree, the identity lists, the logged-in user
and the working directory. -/

structure FSState where
  fileSystem : FileNode
  users : List User
  groups : List Group
  currentUser : Option String
  currentPath : String

/-- Source: `homePath = currentUser === 'root' ? '/root' : currentUser ? '/home/'+currentUser : '/'`
(an empty username is falsy in JS). -/
def homePath (st : FSState) : String :=
  match st.currentUser with
  | some u => if u == "root" then "/root" else if u == "" then "/" else "/home/" ++ u
  | none => "/"

/-- The `nobody` fallback identity from `getCurrentUser`. -/
def nobodyUser : User :=
  ⟨"nobody", none, 65534, 65534, "Nobody", "/", "", none⟩

/-- Source: `getCurrentUser(username, users)` (an empty username is falsy in JS). -/
def getCurrentUser (username : Option String) (users : List User) : User :=
  match username with
  | none => nobodyUser
  | some u =>
    if u == "" then nobodyUser
    else (users.find? (fun x => x.username == u)).getD nobodyUser

/-- Source: `asUser ? users.find(u => u.username === asUser) || userObj : userObj`. -/
def actingUserOf (st : FSState) (asUser : Option String) : User :=
  let userObj := getCurrentUser st.currentUser st.users
  match asUser with
  | some a =>
    if a == "" then userObj
    else (st.users.find? (fun u => u.username == a)).getD userObj
  | none => userObj

/-! ## Path resolver (`resolvePath`) -/

def userDirs : List String :=
  ["Desktop", "Documents", "Downloads", "Pictures", "Music", "Videos"]

/-- The well-known-folder rewrite: the first `dir` in `userDirs` with
`resolved.startsWith('/' + dir)` is re-rooted under `homePath`.  The source
uses `resolved.replace('/'+dir, homePath+'/'+dir)`, which replaces the first
occurrence; under the `startsWith` guard that occurrence is the prefix, so
the result is `homePath ++ "/" ++ dir ++ rest`. -/
def rewriteUserDir (home resolved : String) : String :=
  match userDirs.find? (fun d => jsStartsWith resolved ("/" ++ d)) with
  | some d => home ++ "/" ++ d ++ jsDrop resolved (d.data.length + 1)
  | none => resolved

/-- Steps (1)–(3) of `resolvePath`: `~` expansion, well-known-folder
rewrite, working-directory prefix for non-absolute paths. -/
def preResolve (home cwd path : String) : String :=
  let r1 := if jsStartsWith path "~" then home ++ jsDrop path 1 else path
  let r2 := rewriteUserDir home r1
  if jsStartsWith r2 "/" then r2 else cwd ++ "/" ++ r2

/-- Steps (4)–(5) of `resolvePath`: split on `/`, drop empty and `.`
segments, fold with a stack where `..` pops, re-join with a leading `/`. -/
def finishResolve (resolved : String) : String :=
  let parts := (jsSplit '/' resolved).filter (fun p => p != "" && p != ".")
  let stack := parts.foldl
    (fun acc part => if part == ".." then acc.dropLast else acc ++ [part])
    ([] : List String)
  "/" ++ String.intercalate "/" stack

/-- Source: `resolvePath(path)`, with the provider's `homePath`/`currentPath` explicit. -/
def resolvePath (home cwd path : String) : String :=
  finishResolve (preResolve home cwd path)

/-- Source: `resolved.substring(0, resolved.lastIndexOf('/')) || '/'`: the text up to
the last `/` (empty when there is no earlier `/`), defaulting to `/`. -/
def parentPathOf (resolved : String) : String :=
  let p : List Char :=
    match (resolved.data.reverse.findIdx? (fun c => c = '/')) with
    | some i => resolved.data.take (resolved.data.length - 1 - i)
    | none => []
  if p = [] then "/" else ⟨p⟩

/-! ## Permission engine (missing `fileSystemUtils.ts`) -/

/-- Modelled from the spec: `checkPermissions(node, user, op)` from the absent
`utils/fileSystemUtils.ts`.  Per spec §4.1: root bypasses all checks; the
10-character permission string is parsed into a type flag plus three rwx
triplets; the owner triplet applies when the acting username equals the
node's owner, the group triplet when the node's group is among the user's
groups, the other triplet otherwise; missing or malformed strings default to
`rwxr-xr-x` for directories and `rw-r--r--` for files; in the execute slot a
sticky/setuid letter (`t`/`s`) counts as executable and `T`/`S` does not. -/
def checkPermissions (node : FileNode) (user : User) (op : String) : Bool :=
  if user.username == "root" then true
  else
    let bits : List Char :=
      match node.permissions with
      | some p =>
        if p.data.length = 10 then p.data.drop 1
        else if node.ntype == "directory" then "rwxr-xr-x".data else "rw-r--r--".data
      | none =>
        if node.ntype == "directory" then "rwxr-xr-x".data else "rw-r--r--".data
    let triplet : List Char :=
      if node.owner == some user.username then bits.take 3
      else if (match node.group with
               | some g => (user.groups.getD []).contains g
               | none => false) then (bits.drop 3).take 3
      else (bits.drop 6).take 3
    if op == "read" then triplet.getD 0 ' ' == 'r'
    else if op == "write" then triplet.getD 1 ' ' == 'w'
    else
      let c := triplet.getD 2 ' '
      c == 'x' || c == 't' || c == 's'

/-! ## Tree query (`getNodeAtPath`, `listDirectory`) -/

/-- The `getNodeAtPath` walk: each step requires the current node to be a
directory with a defined children list and grants the acting user execute
permission; lookup failure yields `none` (`|| null` in the source). -/
def walkRead (u : User) : Option FileNode → List String → Option FileNode
  | cur, [] => cur
  | cur, part :: rest =>
    match cur with
    | none => none
    | some c =>
      if c.ntype != "directory" then none
      else
        match c.children with
        | none => none
        | some l =>
          if !(checkPermissions c u "execute") then none
          else walkRead u (l.find? (fun ch => ch.name == part)) rest

def getNodeAtPath (st : FSState) (path : String) (asUser : Option String) :
    Option FileNode :=
  let resolved := resolvePath (homePath st) st.currentPath path
  if resolved == "/" then some st.fileSystem
  else
    let parts := (jsSplit '/' resolved).filter (fun p => p != "")
    let actingUser := actingUserOf st asUser
    walkRead actingUser (some st.fileSystem) parts

/-! ## The clone-walk-mutate updater pattern

Every `setFileSystem` updater clones the tree, walks it with
`for (const part of parts) { if (current.children) current = current.children.find(...)!; }`
and finally mutates `current` in place.  The walk stalls on a node without a
children list, and throws a `TypeError` (modelled as `Except.error ()`) when
`find` returned `undefined` and parts remain.  `fin` is the whole final
mutation, including its own guard; when the walk ends on `undefined` the
final `if (current ...)` guard fails and the tree is returned unchanged. -/
def bangUpdate (fin : FileNode → FileNode) :
    FileNode → List String → Except Unit FileNode
  | cur, [] => .ok (fin cur)
  | cur, part :: rest =>
    match cur.children with
    | none => .ok (fin cur)
    | some l =>
      match l.find? (fun ch => ch.name == part) with
      | none => if rest.isEmpty then .ok cur else .error ()
      | some child =>
        (bangUpdate fin child rest).map
          (fun newChild => cur.withChildren (some (replaceFirst l part newChild)))

/-! ## Identity store text forms (missing `fileSystemUtils.ts`) -/

/-- Digits-only natural-number field parser used by the identity parsers
(the behavior of `String.toNat?`, written with structural list folds). -/
def parseNatField (s : String) : Option Nat :=
  if s.data ≠ [] ∧ s.data.all Char.isDigit then
    some (s.data.foldl (fun n c => n * 10 + (c.toNat - '0'.toNat)) 0)
  else none

/-- Modelled from the spec: one line of `parsePasswd` from the absent
`utils/fileSystemUtils.ts`.  Per spec §4.2/§6: colon-delimited
`username:password:uid:gid:fullName:homeDir:shell`; a malformed line
structure (wrong field count, non-numeric uid/gid) throws a parse error. -/
def parsePasswdLine (line : String) : Except Unit User :=
  match jsSplit ':' line with
  | [un, pw, uid, gid, fn, hd, sh] =>
    match parseNatField uid, parseNatField gid with
    | some u, some g => .ok ⟨un, some pw, u, g, fn, hd, sh, none⟩
    | _, _ => .error ()
  | _ => .error ()

/-- Modelled from the spec: `parsePasswd(content)` — one record per
non-empty line; throws (`Except.error`) on any malformed line. -/
def parsePasswd (content : String) : Except Unit (List User) :=
  ((jsSplit '\n' content).filter (fun l => l != "")).mapM parsePasswdLine

/-- Modelled from the spec: `formatPasswd(users)` — deterministic reverse
serialization, one `username:password:uid:gid:fullName:homeDir:shell` line
per user; an absent password is serialized as the `x` placeholder. -/
def formatPasswd (users : List User) : String :=
  String.intercalate "\n" (users.map (fun u =>
    u.username ++ ":" ++ u.password.getD "x" ++ ":" ++ toString u.uid ++ ":" ++
    toString u.gid ++ ":" ++ u.fullName ++ ":" ++ u.homeDir ++ ":" ++ u.shell))

/-- Modelled from the spec: one line of `parseGroup` —
`groupname:password:gid:member1,member2,...`; an empty member field means no
members; malformed lines throw. -/
def parseGroupLine (line : String) : Except Unit Group :=
  match jsSplit ':' line with
  | [gn, pw, gid, mem] =>
    match parseNatField gid with
    | some g => .ok ⟨gn, some pw, g, if mem == "" then [] else jsSplit ',' mem⟩
    | none => .error ()
  | _ => .error ()

/-- Modelled from the spec: `parseGroup(content)`. -/
def parseGroup (content : String) : Except Unit (List Group) :=
  ((jsSplit '\n' content).filter (fun l => l != "")).mapM parseGroupLine

/-- Modelled from the spec: `formatGroup(groups)`. -/
def formatGroup (groups : List Group) : String :=
  String.intercalate "\n" (groups.map (fun g =>
    g.groupName ++ ":" ++ g.password.getD "x" ++ ":" ++ toString g.gid ++ ":" ++
    String.intercalate "," g.members))

/-- Modelled from the spec: `octalToPermissions(mode, type)` from the absent
`utils/fileSystemUtils.ts` — converts three octal digits to rwx triplets
behind a type flag derived from the node type.  (The source call site passes
only the node type, so no existing sticky bit is available to the helper.) -/
def octalToPermissions (mode ntype : String) : String :=
  let digitBits := fun (c : Char) =>
    let n := c.toNat - '0'.toNat
    [if n / 4 % 2 = 1 then 'r' else '-',
     if n / 2 % 2 = 1 then 'w' else '-',
     if n % 2 = 1 then 'x' else '-']
  ⟨(if ntype == "directory" then 'd' else '-') :: (mode.data.map digitBits).flatten⟩

/-- The `/^[0-7]{3}$/` test in `chmod`. -/
def isOctal3 (mode : String) : Bool :=
  mode.data.length = 3 && mode.data.all (fun c => '0' ≤ c && c ≤ '7')

/-! ## Mutating operations -/

/-- Source: `deleteNode(path, asUser)`: parent write permission, then the sticky-bit
constraint, then the updater removes every child with the popped name. -/
def deleteNode (st : FSState) (path : String) (asUser : Option String) :
    Except Unit (Bool × FSState) :=
  let resolved := resolvePath (homePath st) st.currentPath path
  if resolved == "/" then .ok (false, st)
  else
    let parts0 := (jsSplit '/' resolved).filter (fun p => p != "")
    match parts0.getLast? with
    | none => .ok (false, st)
    | some name =>
      let parts := parts0.dropLast
      let parentPath := parentPathOf resolved
      match getNodeAtPath st parentPath asUser with
      | none => .ok (false, st)
      | some parentNode =>
        let actingUser := actingUserOf st asUser
        let effectiveUsername := actingUser.username
        if !(checkPermissions parentNode actingUser "write") then .ok (false, st)
        else
          match parentNode.findChild name with
          | none => .ok (false, st)
          | some targetNode =>
            let perms := (parentNode.permissions).getD ""
            let isSticky := jsEndsWith perms "t" || jsEndsWith perms "T"
            if isSticky
               && !(targetNode.owner == some effectiveUsername)
               && !(parentNode.owner == some effectiveUsername)
               && effectiveUsername != "root" then .ok (false, st)
            else
              (bangUpdate
                (fun c =>
                  match c.children with
                  | some l =>
                    c.withChildren (some (l.filter (fun ch => !(ch.name == name))))
                  | none => c)
                st.fileSystem parts).map
                (fun newFS => (true, { st with fileSystem := newFS }))

/-- Source: `moveNode(fromPath, toPath, asUser)`.  Note: unlike `moveNodeById`, this
path-based variant has no destination-inside-source (cycle) check; after
`deleteNode` succeeds, the push updater walks the already-modified tree. -/
def moveNode (st : FSState) (fromPath toPath : String) (asUser : Option String) :
    Except Unit (Bool × FSState) :=
  let resolvedFrom := resolvePath (homePath st) st.currentPath fromPath
  let resolvedTo := resolvePath (homePath st) st.currentPath toPath
  let actingUser := actingUserOf st asUser
  match getNodeAtPath st resolvedFrom asUser with
  | none => .ok (false, st)
  | some node =>
    let sourceParentPath := parentPathOf resolvedFrom
    match getNodeAtPath st sourceParentPath asUser with
    | none => .ok (false, st)
    | some sourceParent =>
      if !(checkPermissions sourceParent actingUser "write") then .ok (false, st)
      else
        let nodeToMove := node
        let toParts0 := (jsSplit '/' resolvedTo).filter (fun p => p != "")
        match toParts0.getLast? with
        | none => .ok (false, st)
        | some newName =>
          let toParts := toParts0.dropLast
          let parentPath := "/" ++ String.intercalate "/" toParts
          match getNodeAtPath st parentPath asUser with
          | none => .ok (false, st)
          | some destParent =>
            if destParent.ntype != "directory" then .ok (false, st)
            else
              match destParent.children with
              | none => .ok (false, st)
              | some destChildren =>
                if !(checkPermissions destParent actingUser "write") then
                  .ok (false, st)
                else if destChildren.any (fun c => c.name == newName) then
                  .ok (false, st)
                else
                  match deleteNode st resolvedFrom asUser with
                  | .error e => .error e
                  | .ok (deleteSuccess, st1) =>
                    if !deleteSuccess then .ok (false, st1)
                    else
                      let moved := nodeToMove.withName newName
                      (bangUpdate
                        (fun c =>
                          match c.children with
                          | some l => c.withChildren (some (l ++ [moved]))
                          | none => c)
                        st1.fileSystem
                        ((jsSplit '/' parentPath).filter (fun p => p != ""))).map
                        (fun newFS => (true, { st1 with fileSystem := newFS }))

/-- Source: `createFile(path, name, content, asUser)`; `newId` stands for
`crypto.randomUUID()` and `now` for `new Date()`. -/
def createFile (st : FSState) (path name content : String) (asUser : Option String)
    (newId : String) (now : Nat) : Except Unit (Bool × FSState) :=
  let resolved := resolvePath (homePath st) st.currentPath path
  match getNodeAtPath st resolved asUser with
  | none => .ok (false, st)
  | some node =>
    let actingUser := actingUserOf st asUser
    if node.ntype != "directory" then .ok (false, st)
    else
      match node.children with
      | none => .ok (false, st)
      | some l =>
        if !(checkPermissions node actingUser "write") then .ok (false, st)
        else if l.any (fun c => c.name == name) then .ok (false, st)
        else
          let newFile : FileNode :=
            .mk newId name "file" (some content) none (some "-rw-r--r--")
              (some actingUser.username) none (some content.data.length) (some now)
          (bangUpdate
            (fun c =>
              match c.children with
              | some cl => c.withChildren (some (cl ++ [newFile]))
              | none => c)
            st.fileSystem ((jsSplit '/' resolved).filter (fun p => p != ""))).map
            (fun newFS => (true, { st with fileSystem := newFS }))

/-- Source: `createDirectory(path, name, asUser)`. -/
def createDirectory (st : FSState) (path name : String) (asUser : Option String)
    (newId : String) (now : Nat) : Except Unit (Bool × FSState) :=
  let resolved := resolvePath (homePath st) st.currentPath path
  match getNodeAtPath st resolved asUser with
  | none => .ok (false, st)
  | some node =>
    let actingUser := actingUserOf st asUser
    if node.ntype != "directory" then .ok (false, st)
    else
      match node.children with
      | none => .ok (false, st)
      | some l =>
        if !(checkPermissions node actingUser "write") then .ok (false, st)
        else if l.any (fun c => c.name == name) then .ok (false, st)
        else
          let newDir : FileNode :=
            .mk newId name "directory" none (some []) (some "drwxr-xr-x")
              (some actingUser.username) none none (some now)
          (bangUpdate
            (fun c =>
              match c.children with
              | some cl => c.withChildren (some (cl ++ [newDir]))
              | none => c)
            st.fileSystem ((jsSplit '/' resolved).filter (fun p => p != ""))).map
            (fun newFS => (true, { st with fileSystem := newFS }))

/-- The `writeFile` tail for `/etc/passwd`: re-parse into the in-memory user
list only when the parse succeeds and the parsed records differ from the
current ones (`JSON.stringify` comparison modelled as structural equality);
a parse failure is caught and logged. -/
def applyPasswdSync (st : FSState) (resolved content : String) : FSState :=
  if resolved == "/etc/passwd" then
    match parsePasswd content with
    | .ok parsedUsers =>
      if parsedUsers ≠ st.users then { st with users := parsedUsers } else st
    | .error _ => st
  else st

/-- The `writeFile` tail for `/etc/group`. -/
def applyGroupSync (st : FSState) (resolved content : String) : FSState :=
  if resolved == "/etc/group" then
    match parseGroup content with
    | .ok parsedGroups =>
      if parsedGroups ≠ st.groups then { st with groups := parsedGroups } else st
    | .error _ => st
  else st

/-- Source: `writeFile(path, content, asUser)`: the permission check runs only when
the lookup found a node; the updater then walks to the parent and rewrites
the named child if it is a file; finally a write to `/etc/passwd` or
`/etc/group` re-parses into the identity lists when the parse succeeds and
the parsed records differ from the in-memory ones. -/
def writeFile (st : FSState) (path content : String) (asUser : Option String)
    (now : Nat) : Except Unit (Bool × FSState) :=
  let resolved := resolvePath (homePath st) st.currentPath path
  let node := getNodeAtPath st resolved asUser
  let actingUser := actingUserOf st asUser
  let denied :=
    match node with
    | some n => !(checkPermissions n actingUser "write")
    | none => false
  if denied then .ok (false, st)
  else
    let parts := (jsSplit '/' resolved).filter (fun p => p != "")
    (bangUpdate
      (fun c =>
        match c.children with
        | none => c
        | some l =>
          match parts.getLast? with
          | none => c
          | some nm =>
            match l.find? (fun ch => ch.name == nm) with
            | some f =>
              if f.ntype == "file" then
                c.withChildren (some (replaceFirst l nm (f.withWrite content now)))
              else c
            | none => c)
      st.fileSystem parts.dropLast).map
      (fun newFS =>
        (true, applyGroupSync (applyPasswdSync { st with fileSystem := newFS }
          resolved content) resolved content))

/-- Source: `chmod(path, mode, asUser)`: owner-or-root only; a mode matching `[0-7]{3}` is
converted, a 10-character mode is taken literally, anything else fails. -/
def chmod (st : FSState) (path mode : String) (asUser : Option String) :
    Except Unit (Bool × FSState) :=
  let resolved := resolvePath (homePath st) st.currentPath path
  match getNodeAtPath st resolved asUser with
  | none => .ok (false, st)
  | some node =>
    let actingUser := actingUserOf st asUser
    if actingUser.username != "root" && node.owner != some actingUser.username then
      .ok (false, st)
    else
      let valid :=
        if isOctal3 mode then some (octalToPermissions mode node.ntype)
        else if mode.data.length = 10 then some mode
        else none
      match valid with
      | none => .ok (false, st)
      | some newPerms =>
        (bangUpdate (fun c => c.withPermissions (some newPerms))
          st.fileSystem ((jsSplit '/' resolved).filter (fun p => p != ""))).map
          (fun newFS => (true, { st with fileSystem := newFS }))

/-! ## Identity sync effects and login -/

/-- The users → `/etc/passwd` sync effect (provider lines 243–264): serialize
the in-memory users; if `/etc` exists with children, ensure a `passwd` node
(freshly created with empty content when missing) and, only when its content
differs from the serialization, set content and `modified` and commit the new
tree; otherwise the previous tree reference is returned unchanged. -/
def syncUsersToFS (st : FSState) (newId : String) (now : Nat) : FSState :=
  let passwdContent := formatPasswd st.users
  let fs := st.fileSystem
  let newFS :=
    match fs.children with
    | none => fs
    | some rootCh =>
      match rootCh.find? (fun c => c.name == "etc") with
      | none => fs
      | some etc =>
        match etc.children with
        | none => fs
        | some etcCh =>
          match etcCh.find? (fun c => c.name == "passwd") with
          | some passwd =>
            if passwd.content != some passwdContent then
              let passwd' :=
                match passwd with
                | .mk i n t _ ch p o g s _ =>
                  FileNode.mk i n t (some passwdContent) ch p o g s (some now)
              fs.withChildren (some (replaceFirst rootCh "etc"
                (etc.withChildren (some (replaceFirst etcCh "passwd" passwd')))))
            else fs
          | none =>
            if some "" != some passwdContent then
              let passwd' : FileNode :=
                .mk newId "passwd" "file" (some passwdContent) none
                  (some "-rw-r--r--") (some "root") none none (some now)
              fs.withChildren (some (replaceFirst rootCh "etc"
                (etc.withChildren (some (etcCh ++ [passwd'])))))
            else fs
  { st with fileSystem := newFS }

/-- The groups → `/etc/group` sync effect (provider lines 266–288). -/
def syncGroupsToFS (st : FSState) (newId : String) (now : Nat) : FSState :=
  let groupContent := formatGroup st.groups
  let fs := st.fileSystem
  let newFS :=
    match fs.children with
    | none => fs
    | some rootCh =>
      match rootCh.find? (fun c => c.name == "etc") with
      | none => fs
      | some etc =>
        match etc.children with
        | none => fs
        | some etcCh =>
          match etcCh.find? (fun c => c.name == "group") with
          | some groupFile =>
            if groupFile.content != some groupContent then
              let groupFile' :=
                match groupFile with
                | .mk i n t _ ch p o g s _ =>
                  FileNode.mk i n t (some groupContent) ch p o g s (some now)
              fs.withChildren (some (replaceFirst rootCh "etc"
                (etc.withChildren (some (replaceFirst etcCh "group" groupFile')))))
            else fs
          | none =>
            if some "" != some groupContent then
              let groupFile' : FileNode :=
                .mk newId "group" "file" (some groupContent) none
                  (some "-rw-r--r--") (some "root") none none (some now)
              fs.withChildren (some (replaceFirst rootCh "etc"
                (etc.withChildren (some (etcCh ++ [groupFile'])))))
            else fs
  { st with fileSystem := newFS }

/-- Source: `login`'s user resolution: first authority is a parse of the
`/etc/passwd` node content (skipped when the node or its content is missing
or empty, or the parse throws), with the in-memory list as fallback. -/
def targetUserOf (st : FSState) (username : String) : Option User :=
  let fromFile : Option User :=
    match st.fileSystem.children with
    | none => none
    | some rootCh =>
      match rootCh.find? (fun c => c.name == "etc") with
      | none => none
      | some etc =>
        match etc.children with
        | none => none
        | some etcCh =>
          match etcCh.find? (fun c => c.name == "passwd") with
          | none => none
          | some passwdFile =>
            match passwdFile.content with
            | none => none
            | some content =>
              if content == "" then none
              else
                match parsePasswd content with
                | .ok fileUsers => fileUsers.find? (fun u => u.username == username)
                | .error _ => none
  match fromFile with
  | some u => some u
  | none => st.users.find? (fun u => u.username == username)

/-- Source: `login(username, password)`: the stored password is enforced only when it
is truthy (non-empty); success sets the current user and, via the
`currentUser` effect, the working directory to the user's home. -/
def login (st : FSState) (username : String) (password : Option String) :
    Bool × FSState :=
  match targetUserOf st username with
  | some targetUser =>
    let pwfail :=
      match targetUser.password with
      | some p => p != "" && password != some p
      | none => false
    if pwfail then (false, st)
    else
      (true,
        { st with
          currentUser := some username
          currentPath :=
            if username == "" then st.currentPath
            else if username == "root" then "/root" else "/home/" ++ username })
  | none => (false, st)

/-! ## Spec-side definitions for refinement claims -/

/-- The spec's path-normalization stage, stated as in §4.3: the path is split
into segments, `.` (and empty) segments dropped, each `..` pops the last
pushed segment with a silent no-op on an empty stack. -/
def specNormalizeAux : List String → List String → List String
  | acc, [] => acc
  | acc, s :: rest =>
    if s = "" ∨ s = "." then specNormalizeAux acc rest
    else if s = ".." then specNormalizeAux acc.dropLast rest
    else specNormalizeAux (acc ++ [s]) rest

def specNormalize (segs : List String) : List String := specNormalizeAux [] segs

/-- The two failure modes of the tree-query layer that the spec says are
deliberately collapsed into a single `null`. -/
inductive LookupErr where
  | notFound
  | permDenied
deriving Repr, DecidableEq

/-- The spec's error-distinguishing view of the `getNodeAtPath` walk: a
missing segment (or walking into a non-directory or a node without children)
is `notFound`, a failed execute check on an intermediate directory is
`permDenied`. -/
def walkReadE (u : User) : Option FileNode → List String → Except LookupErr FileNode
  | cur, [] =>
    match cur with
    | some c => .ok c
    | none => .error .notFound
  | cur, part :: rest =>
    match cur with
    | none => .error .notFound
    | some c =>
      if c.ntype != "directory" then .error .notFound
      else
        match c.children with
        | none => .error .notFound
        | some l =>
          if !(checkPermissions c u "execute") then .error .permDenied
          else walkReadE u (l.find? (fun ch => ch.name == part)) rest

/-- The lookup `getNodeAtPath` with the spec's two failure modes kept distinct. -/
def getNodeAtPathE (st : FSState) (path : String) (asUser : Option String) :
    Except LookupErr FileNode :=
  let resolved := resolvePath (homePath st) st.currentPath path
  if resolved == "/" then .ok st.fileSystem
  else
    let parts := (jsSplit '/' resolved).filter (fun p => p != "")
    let actingUser := actingUserOf st asUser
    walkReadE actingUser (some st.fileSystem) parts

/-! ## Concrete fixtures used by the closed theorems and witnesses -/

def rootU : User :=
  ⟨"root", some "admin", 0, 0, "System Administrator", "/root", "/bin/bash", some ["root"]⟩
def aliceU : User := ⟨"alice", some "pw", 1000, 1000, "Alice", "/home/alice", "/bin/bash", none⟩
def bobU : User := ⟨"bob", some "pw", 1001, 1001, "Bob", "/home/bob", "/bin/bash", none⟩
def daveU : User := ⟨"dave", some "x", 1002, 1002, "Dave", "/home/dave", "/bin/bash", none⟩
def eveU : User := ⟨"eve", none, 1003, 1003, "Eve", "/home/eve", "/bin/bash", none⟩

/-- Fixture: `/tmp/a.txt`, owned by alice. -/
def aTxt : FileNode :=
  .mk "f1" "a.txt" "file" (some "hi") none (some "-rw-r--r--") (some "alice") none
    (some 2) (some 0)

/-- Fixture: `/tmp`, a world-writable sticky directory (`drwxrwxrwt`), owned by root. -/
def tmpDir : FileNode :=
  .mk "d1" "tmp" "directory" none (some [aTxt]) (some "drwxrwxrwt") (some "root") none
    none (some 0)

def stickyRoot : FileNode :=
  .mk "r0" "" "directory" none (some [tmpDir]) (some "drwxr-xr-x") (some "root") none
    none (some 0)

/-- The sticky-bit scenario: `/tmp` is `drwxrwxrwt`, `/tmp/a.txt` belongs to
alice, and root is logged in. -/
def stSticky : FSState :=
  ⟨stickyRoot, [rootU, aliceU, bobU, daveU, eveU], [], some "root", "/root"⟩

/-- An empty directory `/a` owned by root. -/
def aDir : FileNode :=
  .mk "a1" "a" "directory" none (some []) (some "drwxr-xr-x") (some "root") none
    none (some 0)

def moveRoot : FileNode :=
  .mk "r1" "" "directory" none (some [aDir]) (some "drwxr-xr-x") (some "root") none
    none (some 0)

/-- Root logged in over a tree whose only entry is the directory `/a`. -/
def stMove : FSState := ⟨moveRoot, [rootU], [], some "root", "/root"⟩

/-- What `moveNode '/a' '/a/b'` actually leaves behind: the tree with `/a`
deleted and nothing re-inserted. -/
def stMoved : FSState := { stMove with fileSystem := moveRoot.withChildren (some []) }

/-- Fixture: `/a/b`, an empty directory inside `/a`. -/
def bDir : FileNode :=
  .mk "b1" "b" "directory" none (some []) (some "drwxr-xr-x") (some "root") none
    none (some 0)

def aDirWithB : FileNode :=
  .mk "a2" "a" "directory" none (some [bDir]) (some "drwxr-xr-x") (some "root") none
    none (some 0)

def moveRoot2 : FileNode :=
  .mk "r2" "" "directory" none (some [aDirWithB]) (some "drwxr-xr-x") (some "root") none
    none (some 0)

/-- Root logged in over a tree holding `/a/b`. -/
def stMove2 : FSState := ⟨moveRoot2, [rootU], [], some "root", "/root"⟩

/-- Fixture: `/locked/v.txt`, owned by bob. -/
def vTxt : FileNode :=
  .mk "v1" "v.txt" "file" (some "v") none (some "-rw-r--r--") (some "bob") none
    (some 1) (some 0)

/-- Fixture: `/locked`, a directory bob cannot write (`drwxr-xr-x`, owned by root). -/
def lockedDir : FileNode :=
  .mk "ld" "locked" "directory" none (some [vTxt]) (some "drwxr-xr-x") (some "root")
    none none (some 0)

/-- Fixture: `/free/m.txt`, owned by bob. -/
def mTxt : FileNode :=
  .mk "m1" "m.txt" "file" (some "m") none (some "-rw-r--r--") (some "bob") none
    (some 1) (some 0)

/-- Fixture: `/free`, a world-writable directory. -/
def freeDir : FileNode :=
  .mk "fd" "free" "directory" none (some [mTxt]) (some "drwxrwxrwx") (some "root")
    none none (some 0)

def lockedRoot : FileNode :=
  .mk "r3" "" "directory" none (some [lockedDir, freeDir]) (some "drwxr-xr-x")
    (some "root") none none (some 0)

/-- Root logged in; bob will act over `/locked` and `/free`. -/
def stLocked : FSState := ⟨lockedRoot, [rootU, bobU], [], some "root", "/root"⟩

/-- A root account record without supplementary groups, so that it survives
a passwd-serialization round trip unchanged. -/
def rootNG : User :=
  ⟨"root", some "admin", 0, 0, "System Administrator", "/root", "/bin/bash", none⟩

def usersEtc : List User := [rootNG]

def groupsEtc : List Group := [⟨"users", some "x", 100, ["alice"]⟩]

/-- Fixture: `/etc/passwd` holding exactly the serialization of the in-memory users. -/
def passwdNode : FileNode :=
  .mk "p1" "passwd" "file" (some (formatPasswd usersEtc)) none (some "-rw-r--r--")
    (some "root") none (some (formatPasswd usersEtc).data.length) (some 0)

/-- Fixture: `/etc/group` holding exactly the serialization of the in-memory groups. -/
def groupNode : FileNode :=
  .mk "g1" "group" "file" (some (formatGroup groupsEtc)) none (some "-rw-r--r--")
    (some "root") none (some (formatGroup groupsEtc).data.length) (some 0)

def etcDir : FileNode :=
  .mk "e1" "etc" "directory" none (some [passwdNode, groupNode]) (some "drwxr-xr-x")
    (some "root") none none (some 0)

def etcRoot : FileNode :=
  .mk "r4" "" "directory" none (some [etcDir]) (some "drwxr-xr-x") (some "root") none
    none (some 0)

/-- A state whose identity files are exactly in sync with the identity lists. -/
def stEtc : FSState := ⟨etcRoot, usersEtc, groupsEtc, some "root", "/root"⟩

/-! ## Helper lemmas -/

/-- The code's filter-then-fold stack stage computes the spec's
normalization, for any starting stack. -/
theorem foldl_filter_eq_specNormalizeAux (l acc : List String) :
    (l.filter (fun p => p != "" && p != ".")).foldl
      (fun acc part => if part == ".." then acc.dropLast else acc ++ [part]) acc
    = specNormalizeAux acc l := by
  induction l generalizing acc with
  | nil => simp [specNormalizeAux]
  | cons s rest ih =>
    rw [List.filter_cons]
    by_cases h0 : s = "" ∨ s = "."
    · have hf : (s != "" && s != ".") = false := by
        rcases h0 with h | h <;> simp [h]
      rw [if_neg (by simp [hf]), ih]
      conv_rhs => rw [specNormalizeAux]
      rw [if_pos h0]
    · push_neg at h0
      have hf : (s != "" && s != ".") = true := by simp [h0.1, h0.2]
      rw [if_pos (by simp [hf]), List.foldl_cons, ih]
      by_cases h2 : s = ".."
      · simp [specNormalizeAux, h0.1, h0.2, h2]
      · simp [specNormalizeAux, h0.1, h0.2, h2]

theorem data_append (a b : String) : (a ++ b).data = a.data ++ b.data := rfl

/-- Over incomparable lists, appending a tail cannot create a prefix. -/
theorem isPrefixOf_append_false {A D : List Char} (t : List Char)
    (h1 : A.isPrefixOf D = false) (h2 : D.isPrefixOf A = false) :
    A.isPrefixOf (D ++ t) = false := by
  rw [Bool.eq_false_iff, Ne, List.isPrefixOf_iff_prefix]
  rw [Bool.eq_false_iff, Ne, List.isPrefixOf_iff_prefix] at h1 h2
  intro hc
  rcases le_or_lt A.length D.length with hl | hl
  · refine h1 ?_
    rw [List.prefix_iff_eq_take] at hc ⊢
    rwa [List.take_append_of_le_length hl] at hc
  · refine h2 ?_
    rw [List.prefix_iff_eq_take] at hc ⊢
    calc D = (D ++ t).take D.length := (List.take_left D t).symm
    _ = (A ++ (D ++ t).drop A.length).take D.length := by
          conv_lhs => rw [← List.take_append_drop A.length (D ++ t), ← hc]
    _ = A.take D.length := List.take_append_of_le_length (le_of_lt hl)

/-- A path `'/dir1'` is not a JS prefix of `'/dir2' ++ rest` when the two directory
names are incomparable. -/
theorem jsStartsWith_slash_append_false (d' d rest : String)
    (h1 : d'.data.isPrefixOf d.data = false) (h2 : d.data.isPrefixOf d'.data = false) :
    jsStartsWith ("/" ++ d ++ rest) ("/" ++ d') = false := by
  show (("/" ++ d').data).isPrefixOf (("/" ++ d ++ rest).data) = false
  rw [data_append, data_append, data_append]
  show (['/'] ++ d'.data).isPrefixOf (['/'] ++ d.data ++ rest.data) = false
  simpa [List.isPrefixOf] using isPrefixOf_append_false rest.data h1 h2

theorem jsStartsWith_slash_append_true (d rest : String) :
    jsStartsWith ("/" ++ d ++ rest) ("/" ++ d) = true := by
  show (("/" ++ d).data).isPrefixOf (("/" ++ d ++ rest).data) = true
  rw [data_append, data_append, data_append]
  rw [List.isPrefixOf_iff_prefix, List.append_assoc]
  exact List.prefix_append _ _

/-- A string whose first character is not `/` does not start with `'/' ++ x`. -/
theorem jsStartsWith_slash_head_ne (p x : String) (h : p.data.head? ≠ some '/') :
    jsStartsWith p ("/" ++ x) = false := by
  show (("/" ++ x).data).isPrefixOf p.data = false
  rw [data_append]
  cases hp : p.data with
  | nil => rfl
  | cons c cs =>
    have hc : ('/' == c) = false := by
      refine beq_false_of_ne fun hcc => h ?_
      rw [hp, ← hcc]
      rfl
    show (('/' :: x.data).isPrefixOf (c :: cs)) = false
    simp [List.isPrefixOf, hc]

/-- A string whose first character is not `~` does not start with `~`. -/
theorem jsStartsWith_tilde_head_ne (p : String) (h : p.data.head? ≠ some '~') :
    jsStartsWith p "~" = false := by
  show (("~").data).isPrefixOf p.data = false
  cases hp : p.data with
  | nil => rfl
  | cons c cs =>
    have hc : ('~' == c) = false := by
      refine beq_false_of_ne fun hcc => h ?_
      rw [hp, ← hcc]
      rfl
    show ((['~']).isPrefixOf (c :: cs)) = false
    simp [List.isPrefixOf, hc]

/-- A prefix stays a prefix after appending. -/
theorem jsStartsWith_append_right (s p t : String) (h : jsStartsWith s p = true) :
    jsStartsWith (s ++ t) p = true := by
  show (p.data).isPrefixOf ((s ++ t).data) = true
  rw [data_append, List.isPrefixOf_iff_prefix]
  rw [jsStartsWith, List.isPrefixOf_iff_prefix] at h
  exact h.trans (List.prefix_append s.data t.data)

/-- The code's `getNodeAtPath` walk is the spec's error-distinguishing walk
with both error kinds collapsed to `none`. -/
theorem walkRead_eq_walkReadE_toOption (u : User) (cur : Option FileNode)
    (parts : List String) :
    walkRead u cur parts = (walkReadE u cur parts).toOption := by
  induction parts generalizing cur with
  | nil => cases cur <;> simp [walkRead, walkReadE, Except.toOption]
  | cons part rest ih =>
    cases cur with
    | none => simp [walkRead, walkReadE, Except.toOption]
    | some c =>
      simp only [walkRead, walkReadE]
      by_cases ht : c.ntype != "directory"
      · simp [ht, Except.toOption]
      · simp only [ht, Bool.false_eq_true, if_false]
        cases hch : c.children with
        | none => simp [Except.toOption]
        | some l =>
          by_cases hp : checkPermissions c u "execute"
          · simp [hp, ih]
          · simp [hp, Except.toOption]

/-- When the read walk reaches a node, the updater walk over the same
segments cannot throw. -/
theorem bangUpdate_ok_of_walkRead_some (u : User) (fin : FileNode → FileNode)
    (parts : List String) (cur target : FileNode)
    (h : walkRead u (some cur) parts = some target) :
    ∃ fs', bangUpdate fin cur parts = .ok fs' := by
  induction parts generalizing cur with
  | nil => exact ⟨fin cur, rfl⟩
  | cons part rest ih =>
    simp only [walkRead] at h
    by_cases ht : cur.ntype != "directory"
    · simp [ht] at h
    · simp only [ht, Bool.false_eq_true, if_false] at h
      cases hch : cur.children with
      | none => simp [hch] at h
      | some l =>
        simp only [hch] at h
        by_cases hp : checkPermissions cur u "execute"
        · simp only [hp, Bool.not_true, Bool.false_eq_true, if_false] at h
          cases hf : l.find? (fun ch => ch.name == part) with
          | none =>
            rw [hf] at h
            cases rest with
            | nil => simp [walkRead] at h
            | cons r rs => simp [walkRead] at h
          | some child =>
            rw [hf] at h
            obtain ⟨fs', hfs'⟩ := ih child h
            exact ⟨cur.withChildren (some (replaceFirst l part fs')),
              by simp [bangUpdate, hch, hf, hfs', Except.map]⟩
        · simp [hp] at h

theorem find?_step_pos (s a : String) (l : List String)
    (h : jsStartsWith s ("/" ++ a) = true) :
    List.find? (fun x => jsStartsWith s ("/" ++ x)) (a :: l) = some a := by
  simp [List.find?_cons, h]

theorem find?_step_neg (s a : String) (l : List String)
    (h : jsStartsWith s ("/" ++ a) = false) :
    List.find? (fun x => jsStartsWith s ("/" ++ x)) (a :: l)
      = List.find? (fun x => jsStartsWith s ("/" ++ x)) l := by
  simp [List.find?_cons, h]

/-- Absolute paths starting with a well-known folder name are re-rooted
under the home directory by the pre-resolution stage. -/
theorem preResolve_userDir (home cwd d rest : String) (hd : d ∈ userDirs)
    (hhome : jsStartsWith home "/" = true) :
    preResolve home cwd ("/" ++ d ++ rest) = home ++ "/" ++ d ++ rest := by
  have htilde : jsStartsWith ("/" ++ d ++ rest) "~" = false := by
    refine jsStartsWith_tilde_head_ne _ ?_
    rw [data_append, data_append]
    intro hcc
    simp at hcc
  have hdrop : jsDrop ("/" ++ d ++ rest) (d.data.length + 1) = rest := by
    show (⟨(("/" ++ d ++ rest).data).drop (d.data.length + 1)⟩ : String) = rest
    rw [data_append, data_append]
    have hlen : ("/".data ++ d.data).length = d.data.length + 1 := by simp
    rw [← hlen, List.drop_left]
  have hpos : ∀ d', jsStartsWith ("/" ++ d' ++ rest) ("/" ++ d') = true :=
    fun d' => jsStartsWith_slash_append_true d' rest
  have hfind : userDirs.find?
      (fun x => jsStartsWith ("/" ++ d ++ rest) ("/" ++ x)) = some d := by
    have hne : ∀ dd d' : String, d'.data.isPrefixOf dd.data = false →
        dd.data.isPrefixOf d'.data = false →
        jsStartsWith ("/" ++ dd ++ rest) ("/" ++ d') = false := fun dd d' h1 h2 =>
      jsStartsWith_slash_append_false d' dd rest h1 h2
    fin_cases hd <;> simp only [userDirs]
    · rw [find?_step_pos _ _ _ (hpos "Desktop")]
    · rw [find?_step_neg _ _ _ (hne _ "Desktop" (by decide) (by decide)),
        find?_step_pos _ _ _ (hpos "Documents")]
    · rw [find?_step_neg _ _ _ (hne _ "Desktop" (by decide) (by decide)),
        find?_step_neg _ _ _ (hne _ "Documents" (by decide) (by decide)),
        find?_step_pos _ _ _ (hpos "Downloads")]
    · rw [find?_step_neg _ _ _ (hne _ "Desktop" (by decide) (by decide)),
        find?_step_neg _ _ _ (hne _ "Documents" (by decide) (by decide)),
        find?_step_neg _ _ _ (hne _ "Downloads" (by decide) (by decide)),
        find?_step_pos _ _ _ (hpos "Pictures")]
    · rw [find?_step_neg _ _ _ (hne _ "Desktop" (by decide) (by decide)),
        find?_step_neg _ _ _ (hne _ "Documents" (by decide) (by decide)),
        find?_step_neg _ _ _ (hne _ "Downloads" (by decide) (by decide)),
        find?_step_neg _ _ _ (hne _ "Pictures" (by decide) (by decide)),
        find?_step_pos _ _ _ (hpos "Music")]
    · rw [find?_step_neg _ _ _ (hne _ "Desktop" (by decide) (by decide)),
        find?_step_neg _ _ _ (hne _ "Documents" (by decide) (by decide)),
        find?_step_neg _ _ _ (hne _ "Downloads" (by decide) (by decide)),
        find?_step_neg _ _ _ (hne _ "Pictures" (by decide) (by decide)),
        find?_step_neg _ _ _ (hne _ "Music" (by decide) (by decide)),
        find?_step_pos _ _ _ (hpos "Videos")]
  have hslash2 : jsStartsWith (home ++ "/" ++ d ++ rest) "/" = true :=
    jsStartsWith_append_right _ _ rest
      (jsStartsWith_append_right _ _ d
        (jsStartsWith_append_right home "/" "/" hhome))
  simp only [preResolve, rewriteUserDir, htilde, Bool.false_eq_true, if_false]
  rw [hfind]
  dsimp only
  rw [hdrop]
  simp only [hslash2, if_true]

/-- Paths starting with neither `/` nor `~` are prefixed with the working
directory by the pre-resolution stage. -/
theorem preResolve_relative (home cwd p : String)
    (hp1 : p.data.head? ≠ some '/') (hp2 : p.data.head? ≠ some '~') :
    preResolve home cwd p = cwd ++ "/" ++ p := by
  have htilde : jsStartsWith p "~" = false := jsStartsWith_tilde_head_ne p hp2
  have hfind : userDirs.find? (fun x => jsStartsWith p ("/" ++ x)) = none := by
    rw [List.find?_eq_none]
    intro x _
    simp [jsStartsWith_slash_head_ne p x hp1]
  have hslash : jsStartsWith p "/" = false := by
    have := jsStartsWith_slash_head_ne p "" hp1
    simpa using this
  simp only [preResolve, rewriteUserDir, htilde, Bool.false_eq_true, if_false]
  rw [hfind]
  simp only [hslash, Bool.false_eq_true, if_false]

/-! ## Claim theorems -/

/-- C1: the claim states that the path-based `moveNode(A, dest)` always fails
and leaves the tree unchanged when `dest` lies inside `A`'s own subtree.  The
code has no such check: with `/a` an empty directory and root acting,
`moveNode('/a', '/a/b')` first deletes `/a`, then the push updater cannot
find the destination parent any more, so the call *returns true* while the
node (and its whole subtree) is lost; with the destination one level deeper
(`/a/b/a2` for an existing `/a/b`), the push updater throws a `TypeError`
(modelled as `Except.error ()`).  This contradicts the claim and the spec
and destroys the tree's no-node-lost invariant, so it is a code bug. -/
theorem moveNode_into_own_subtree_bug :
    moveNode stMove "/a" "/a/b" none = .ok (true, stMoved)
    ∧ stMoved.fileSystem.children = some []
    ∧ moveNode stMove2 "/a" "/a/b/a2" none = .error () := by
  refine ⟨rfl, rfl, rfl⟩

/-- C4: `getNodeAtPath` equals the spec's error-distinguishing lookup
(`getNodeAtPathE`, whose `notFound` and `permDenied` outcomes mirror the two
failure cases of the claim) composed with `Except.toOption`: both a missing
segment and a missing execute permission on an intermediate directory
collapse to the same `none`, so the caller cannot tell them apart; the
lookup is a total function, so it never throws. -/
theorem getNodeAtPath_collapses_failures (st : FSState) (path : String)
    (asUser : Option String) :
    getNodeAtPath st path asUser = (getNodeAtPathE st path asUser).toOption := by
  simp only [getNodeAtPath, getNodeAtPathE]
  split
  · rfl
  · exact walkRead_eq_walkReadE_toOption _ _ _

/-- C5: the claim states that `writeFile` on a path that resolves to no node
returns false.  In the code the permission check is guarded by `if (node)`
with no else branch, so a missing node falls through and the call returns
*true* (the tree is indeed left unchanged).  The spec's error taxonomy says
not-found must be a failed operation, so this is a code bug. -/
theorem writeFile_missing_path_returns_true :
    getNodeAtPath stMove "/missing.txt" none = none
    ∧ writeFile stMove "/missing.txt" "hi" none 0 = .ok (true, stMove) := by
  refine ⟨rfl, rfl⟩

/-- C6: the resolver example from the spec, and the general shape of the
final stage: for every input, the path produced by steps (1)–(3)
(`preResolve`) is split on `/` and normalized exactly as the spec describes —
`.` and empty segments dropped, each `..` popping the last pushed segment
with a silent no-op on an empty stack (`specNormalize`) — and the result is
the segments re-joined with a single leading `/`. -/
theorem resolvePath_example_and_stack_shape :
    resolvePath "/home/bob" "/var" "~/Documents/../Pictures/img.png"
      = "/home/bob/Pictures/img.png"
    ∧ ∀ home cwd path : String,
        resolvePath home cwd path
          = "/" ++ String.intercalate "/"
              (specNormalize (jsSplit '/' (preResolve home cwd path))) := by
  refine ⟨rfl, fun home cwd path => ?_⟩
  simp only [resolvePath, finishResolve, specNormalize]
  rw [foldl_filter_eq_specNormalizeAux]

/-- C7 counterexample: the claim states that the well-known-folder rewrite
also applies to paths written without a leading `/`.  It does not: the code
tests `resolved.startsWith('/' + dir)`, so a relative `Documents/...` path is
prefixed with the working directory instead of being re-rooted under home. -/
theorem userDir_relative_path_counterexample :
    resolvePath "/home/bob" "/var" "Documents/a.txt" = "/var/Documents/a.txt"
    ∧ resolvePath "/home/bob" "/var" "Documents/a.txt" ≠ "/home/bob/Documents/a.txt" := by
  refine ⟨rfl, by decide⟩

/-- C10 counterexample: the claim states that a stored password `'x'` makes
the account passwordless.  In the code `'x'` is a truthy string compared
literally, so logging in as `dave` (stored password `'x'`) with password
`'a'` fails. -/
theorem login_x_password_counterexample :
    targetUserOf stSticky "dave" = some daveU
    ∧ daveU.password = some "x"
    ∧ (login stSticky "dave" (some "a")).1 = false := by
  refine ⟨rfl, rfl, rfl⟩

/-- C7 amended: the well-known-folder rewrite applies exactly to paths that
begin with `/` immediately followed by one of the six folder names: such a
path resolves as if rooted under the home directory, while a path starting
with neither `/` nor `~` is never rewritten and resolves as if prefixed with
the working directory. -/
theorem userDir_rewrite_rule (home cwd d rest p : String)
    (hhome : jsStartsWith home "/" = true) (hd : d ∈ userDirs)
    (hp1 : p.data.head? ≠ some '/') (hp2 : p.data.head? ≠ some '~') :
    resolvePath home cwd ("/" ++ d ++ rest) = finishResolve (home ++ "/" ++ d ++ rest)
    ∧ resolvePath home cwd p = finishResolve (cwd ++ "/" ++ p) := by
  constructor
  · unfold resolvePath
    rw [preResolve_userDir home cwd d rest hd hhome]
  · unfold resolvePath
    rw [preResolve_relative home cwd p hp1 hp2]

theorem userDir_rewrite_rule_witness :
    resolvePath "/home/bob" "/var" ("/" ++ "Documents" ++ "/img.png")
      = finishResolve ("/home/bob" ++ "/" ++ "Documents" ++ "/img.png")
    ∧ resolvePath "/home/bob" "/var" "notes/x.txt"
      = finishResolve ("/var" ++ "/" ++ "notes/x.txt") := by
  have h := userDir_rewrite_rule "/home/bob" "/var" "Documents" "/img.png"
    "notes/x.txt" rfl (by simp [userDirs]) (by decide) (by decide)
  exact ⟨h.1, h.2⟩

/-- C10 amended: `login` accepts any supplied password only when the stored
password is absent or empty (falsy in JS); when the stored password is the
literal `'x'`, login succeeds exactly when the supplied password is `'x'`. -/
theorem login_passwordless_policy (st : FSState) (username : String)
    (p : Option String) (tu : User)
    (h : targetUserOf st username = some tu) :
    ((tu.password = none ∨ tu.password = some "") → (login st username p).1 = true)
    ∧ (tu.password = some "x" → ((login st username p).1 = true ↔ p = some "x")) := by
  constructor
  · rintro (hp | hp) <;> simp [login, h, hp]
  · intro hp
    by_cases hx : p = some "x"
    · simp [login, h, hp, hx]
    · simp [login, h, hp, hx]

theorem login_passwordless_policy_witness :
    (login stSticky "eve" (some "whatever")).1 = true
    ∧ ((login stSticky "dave" (some "a")).1 = true ↔ (some "a" : Option String) = some "x") := by
  refine ⟨(login_passwordless_policy stSticky "eve" (some "whatever") eveU rfl).1
      (Or.inl rfl),
    (login_passwordless_policy stSticky "dave" (some "a") daveU rfl).2 rfl⟩

/-- C2: for every directory `D` and non-root acting user lacking write
permission on `D`, each operation targeting a child of `D` — `createFile` /
`createDirectory` in `D`, `deleteNode` of a child of `D`, `moveNode` whose
source parent is `D`, and `moveNode` whose destination parent is `D` —
returns false and leaves the whole state (in particular `D`'s children)
unchanged. -/
theorem unwritable_dir_ops_fail (st : FSState) (D : FileNode)
    (asUser : Option String) (pathA pathB nm content newId : String) (now : Nat)
    (hroot : (actingUserOf st asUser).username ≠ "root")
    (hw : checkPermissions D (actingUserOf st asUser) "write" = false) :
    (getNodeAtPath st (resolvePath (homePath st) st.currentPath pathA) asUser = some D →
      createFile st pathA nm content asUser newId now = .ok (false, st)
      ∧ createDirectory st pathA nm asUser newId now = .ok (false, st))
    ∧ (getNodeAtPath st
        (parentPathOf (resolvePath (homePath st) st.currentPath pathA)) asUser = some D →
      deleteNode st pathA asUser = .ok (false, st))
    ∧ (getNodeAtPath st
        (parentPathOf (resolvePath (homePath st) st.currentPath pathA)) asUser = some D →
      moveNode st pathA pathB asUser = .ok (false, st))
    ∧ (getNodeAtPath st
        ("/" ++ String.intercalate "/"
          (((jsSplit '/' (resolvePath (homePath st) st.currentPath pathB)).filter
            (fun q => q != "")).dropLast)) asUser = some D →
      moveNode st pathA pathB asUser = .ok (false, st)) := by
  refine ⟨fun h => ⟨?_, ?_⟩, fun h => ?_, fun h => ?_, fun h => ?_⟩
  · -- createFile
    unfold createFile
    dsimp only
    rw [h]
    by_cases ht : (D.ntype != "directory") = true
    · simp [ht]
    · simp only [ht, Bool.false_eq_true, if_false]
      cases hch : D.children with
      | none => rfl
      | some l => simp [hw]
  · -- createDirectory
    unfold createDirectory
    dsimp only
    rw [h]
    by_cases ht : (D.ntype != "directory") = true
    · simp [ht]
    · simp only [ht, Bool.false_eq_true, if_false]
      cases hch : D.children with
      | none => rfl
      | some l => simp [hw]
  · -- deleteNode
    unfold deleteNode
    dsimp only
    by_cases hres : (resolvePath (homePath st) st.currentPath pathA == "/") = true
    · simp [hres]
    · simp only [hres, Bool.false_eq_true, if_false]
      cases hlast : ((jsSplit '/' (resolvePath (homePath st) st.currentPath pathA)).filter
          (fun p => p != "")).getLast? with
      | none => rfl
      | some nm' =>
        rw [h]
        simp [hw]
  · -- moveNode, source parent is D
    unfold moveNode
    dsimp only
    cases hn : getNodeAtPath st (resolvePath (homePath st) st.currentPath pathA) asUser with
    | none => rfl
    | some node =>
      rw [h]
      simp [hw]
  · -- moveNode, destination parent is D
    unfold moveNode
    dsimp only
    cases hn : getNodeAtPath st (resolvePath (homePath st) st.currentPath pathA) asUser with
    | none => rfl
    | some node =>
      cases hsp : getNodeAtPath st
          (parentPathOf (resolvePath (homePath st) st.currentPath pathA)) asUser with
      | none => rfl
      | some sourceParent =>
        by_cases hws : (!(checkPermissions sourceParent (actingUserOf st asUser) "write")) = true
        · simp [hws]
        · simp only [hws, Bool.false_eq_true, if_false]
          cases hlast : ((jsSplit '/' (resolvePath (homePath st) st.currentPath pathB)).filter
              (fun p => p != "")).getLast? with
          | none => rfl
          | some newName =>
            rw [h]
            by_cases ht : (D.ntype != "directory") = true
            · simp [ht]
            · simp only [ht, Bool.false_eq_true, if_false]
              cases hch : D.children with
              | none => rfl
              | some l => simp [hw]

theorem unwritable_dir_ops_fail_witness :
    createFile stLocked "/locked" "f.txt" "" (some "bob") "id9" 0 = .ok (false, stLocked)
    ∧ createDirectory stLocked "/locked" "f.txt" (some "bob") "id9" 0 = .ok (false, stLocked)
    ∧ deleteNode stLocked "/locked/v.txt" (some "bob") = .ok (false, stLocked)
    ∧ moveNode stLocked "/locked/v.txt" "/free/v.txt" (some "bob") = .ok (false, stLocked)
    ∧ moveNode stLocked "/free/m.txt" "/locked/m.txt" (some "bob") = .ok (false, stLocked) := by
  have h1 := unwritable_dir_ops_fail stLocked lockedDir (some "bob")
    "/locked" "" "f.txt" "" "id9" 0 (by decide) (by decide)
  have h2 := unwritable_dir_ops_fail stLocked lockedDir (some "bob")
    "/locked/v.txt" "/free/v.txt" "f.txt" "" "id9" 0 (by decide) (by decide)
  have h3 := unwritable_dir_ops_fail stLocked lockedDir (some "bob")
    "/free/m.txt" "/locked/m.txt" "f.txt" "" "id9" 0 (by decide) (by decide)
  exact ⟨(h1.1 rfl).1, (h1.1 rfl).2, h2.2.1 rfl, h2.2.2.1 rfl, h3.2.2.2 rfl⟩

/-- C3: in a directory whose permission string ends in `t`/`T`, `deleteNode`
by a non-root acting user owning neither the target nor the directory fails
with the state unchanged even though the directory grants write permission;
the same delete by the target's owner, the directory's owner, or root
succeeds.  (`hwalk` states that the parent directory is reachable along the
resolved path's own segments, which is what the successful updater replays.) -/
theorem sticky_delete_rule (st : FSState) (path : String) (asUser : Option String)
    (P T : FileNode) (nm : String)
    (hres : (resolvePath (homePath st) st.currentPath path == "/") = false)
    (hlast : ((jsSplit '/' (resolvePath (homePath st) st.currentPath path)).filter
        (fun p => p != "")).getLast? = some nm)
    (hparent : getNodeAtPath st
        (parentPathOf (resolvePath (homePath st) st.currentPath path)) asUser = some P)
    (hwrite : checkPermissions P (actingUserOf st asUser) "write" = true)
    (htarget : P.findChild nm = some T)
    (hsticky : (jsEndsWith ((P.permissions).getD "") "t"
        || jsEndsWith ((P.permissions).getD "") "T") = true) :
    ((actingUserOf st asUser).username ≠ "root" →
      T.owner ≠ some (actingUserOf st asUser).username →
      P.owner ≠ some (actingUserOf st asUser).username →
      deleteNode st path asUser = .ok (false, st))
    ∧ ((T.owner = some (actingUserOf st asUser).username
        ∨ P.owner = some (actingUserOf st asUser).username
        ∨ (actingUserOf st asUser).username = "root") →
      walkRead (actingUserOf st asUser) (some st.fileSystem)
        (((jsSplit '/' (resolvePath (homePath st) st.currentPath path)).filter
          (fun p => p != "")).dropLast) = some P →
      ∃ fs', deleteNode st path asUser = .ok (true, { st with fileSystem := fs' })) := by
  constructor
  · intro hr hT hP
    have hT' : (T.owner == some (actingUserOf st asUser).username) = false :=
      beq_eq_false_iff_ne.mpr hT
    have hP' : (P.owner == some (actingUserOf st asUser).username) = false :=
      beq_eq_false_iff_ne.mpr hP
    have hr' : ((actingUserOf st asUser).username != "root") = true :=
      bne_iff_ne.mpr hr
    unfold deleteNode
    dsimp only
    simp only [hres, Bool.false_eq_true, if_false]
    rw [hlast]
    dsimp only
    rw [hparent]
    dsimp only
    simp only [hwrite, Bool.not_true, Bool.false_eq_true, if_false]
    rw [htarget]
    dsimp only
    simp only [hsticky, hT', hP', hr', Bool.not_false, Bool.true_and, Bool.and_self,
      if_true]
  · intro hdisj hwalk
    obtain ⟨fs', hfs'⟩ := bangUpdate_ok_of_walkRead_some (actingUserOf st asUser)
      (fun c =>
        match c.children with
        | some l => c.withChildren (some (l.filter (fun ch => !(ch.name == nm))))
        | none => c)
      (((jsSplit '/' (resolvePath (homePath st) st.currentPath path)).filter
        (fun p => p != "")).dropLast)
      st.fileSystem P hwalk
    refine ⟨fs', ?_⟩
    unfold deleteNode
    dsimp only
    simp only [hres, Bool.false_eq_true, if_false]
    rw [hlast]
    dsimp only
    rw [hparent]
    dsimp only
    simp only [hwrite, Bool.not_true, Bool.false_eq_true, if_false]
    rw [htarget]
    dsimp only
    have hcond : (((jsEndsWith ((P.permissions).getD "") "t"
        || jsEndsWith ((P.permissions).getD "") "T"))
        && !(T.owner == some (actingUserOf st asUser).username)
        && !(P.owner == some (actingUserOf st asUser).username)
        && ((actingUserOf st asUser).username != "root")) = false := by
      rcases hdisj with h | h | h <;> simp [h]
    rw [hcond]
    simp only [Bool.false_eq_true, if_false]
    rw [hfs']
    rfl

theorem sticky_delete_rule_witness :
    deleteNode stSticky "/tmp/a.txt" (some "bob") = .ok (false, stSticky)
    ∧ (∃ fs', deleteNode stSticky "/tmp/a.txt" (some "alice")
        = .ok (true, { stSticky with fileSystem := fs' }))
    ∧ (∃ fs', deleteNode stSticky "/tmp/a.txt" (some "root")
        = .ok (true, { stSticky with fileSystem := fs' })) := by
  have hb := sticky_delete_rule stSticky "/tmp/a.txt" (some "bob") tmpDir aTxt "a.txt"
    rfl rfl rfl (by decide) rfl (by decide)
  have ha := sticky_delete_rule stSticky "/tmp/a.txt" (some "alice") tmpDir aTxt "a.txt"
    rfl rfl rfl (by decide) rfl (by decide)
  have hr := sticky_delete_rule stSticky "/tmp/a.txt" (some "root") tmpDir aTxt "a.txt"
    rfl rfl rfl (by decide) rfl (by decide)
  exact ⟨hb.1 (by decide) (by decide) (by decide),
    ha.2 (Or.inl (by decide)) rfl,
    hr.2 (Or.inr (Or.inr (by decide))) rfl⟩

/-- C8: `chmod` succeeds only when the lookup finds the target node and the
acting user is root or the node's owner, and only for a 3-digit octal mode or
a 10-character literal mode; every other mode form yields false with the
state (hence the node's permission string) unchanged; and when the
authority, the mode form, and reachability of the node hold, it succeeds. -/
theorem chmod_authority_and_modes (st : FSState) (path mode : String)
    (asUser : Option String) :
    (∀ st', chmod st path mode asUser = .ok (true, st') →
      (∃ n, getNodeAtPath st (resolvePath (homePath st) st.currentPath path) asUser
          = some n
        ∧ ((actingUserOf st asUser).username = "root"
           ∨ n.owner = some (actingUserOf st asUser).username))
      ∧ (isOctal3 mode = true ∨ mode.data.length = 10))
    ∧ (isOctal3 mode = false → mode.data.length ≠ 10 →
      chmod st path mode asUser = .ok (false, st))
    ∧ (∀ n, getNodeAtPath st (resolvePath (homePath st) st.currentPath path) asUser
        = some n →
      ((actingUserOf st asUser).username = "root"
        ∨ n.owner = some (actingUserOf st asUser).username) →
      (isOctal3 mode = true ∨ mode.data.length = 10) →
      walkRead (actingUserOf st asUser) (some st.fileSystem)
        ((jsSplit '/' (resolvePath (homePath st) st.currentPath path)).filter
          (fun p => p != "")) = some n →
      ∃ fs', chmod st path mode asUser = .ok (true, { st with fileSystem := fs' })) := by
  refine ⟨?_, ?_, ?_⟩
  · intro st' h
    unfold chmod at h
    dsimp only at h
    have hsplit : getNodeAtPath st (resolvePath (homePath st) st.currentPath path) asUser
          = none
        ∨ ∃ n, getNodeAtPath st (resolvePath (homePath st) st.currentPath path) asUser
          = some n := by
      cases getNodeAtPath st (resolvePath (homePath st) st.currentPath path) asUser with
      | none => exact Or.inl rfl
      | some n => exact Or.inr ⟨n, rfl⟩
    rcases hsplit with hn | ⟨n, hn⟩
    · rw [hn] at h
      exact absurd h (by simp)
    · rw [hn] at h
      dsimp only at h
      by_cases hown : ((actingUserOf st asUser).username != "root"
          && n.owner != some (actingUserOf st asUser).username) = true
      · rw [if_pos hown] at h
        exact absurd h (by simp)
      · rw [if_neg hown] at h
        have hor : (actingUserOf st asUser).username = "root"
            ∨ n.owner = some (actingUserOf st asUser).username := by
          rcases Bool.eq_false_or_eq_true ((actingUserOf st asUser).username != "root")
            with hx | hx
          · rcases Bool.eq_false_or_eq_true
                (n.owner != some (actingUserOf st asUser).username) with hy | hy
            · exact absurd (by rw [hx, hy]; rfl) hown
            · exact Or.inr (bne_eq_false_iff_eq.mp hy)
          · exact Or.inl (bne_eq_false_iff_eq.mp hx)
        by_cases hoct : isOctal3 mode = true
        · exact ⟨⟨n, hn, hor⟩, Or.inl hoct⟩
        · by_cases hlen : mode.data.length = 10
          · exact ⟨⟨n, hn, hor⟩, Or.inr hlen⟩
          · have hoct' : isOctal3 mode = false := by
              simpa using hoct
            rw [hoct'] at h
            simp only [Bool.false_eq_true, if_false, if_neg hlen] at h
            exact absurd h (by simp)
  · intro hoct hlen
    unfold chmod
    dsimp only
    cases hn : getNodeAtPath st (resolvePath (homePath st) st.currentPath path) asUser with
    | none => rfl
    | some n =>
      dsimp only
      by_cases hown : ((actingUserOf st asUser).username != "root"
          && n.owner != some (actingUserOf st asUser).username) = true
      · rw [if_pos hown]
      · rw [if_neg hown]
        rw [hoct]
        simp only [Bool.false_eq_true, if_false, if_neg hlen]
  · intro n hn hor hform hwalk
    have hown : ((actingUserOf st asUser).username != "root"
        && n.owner != some (actingUserOf st asUser).username) = false := by
      rcases hor with h | h <;> simp [h]
    by_cases hoct : isOctal3 mode = true
    · obtain ⟨fs', hfs'⟩ := bangUpdate_ok_of_walkRead_some (actingUserOf st asUser)
        (fun c => c.withPermissions (some (octalToPermissions mode n.ntype)))
        ((jsSplit '/' (resolvePath (homePath st) st.currentPath path)).filter
          (fun p => p != ""))
        st.fileSystem n hwalk
      refine ⟨fs', ?_⟩
      unfold chmod
      dsimp only
      rw [hn]
      dsimp only
      rw [hown]
      simp only [Bool.false_eq_true, if_false, hoct, if_true]
      rw [hfs']
      rfl
    · have hlen : mode.data.length = 10 := by
        rcases hform with h | h
        · exact absurd h hoct
        · exact h
      have hoct' : isOctal3 mode = false := by simpa using hoct
      obtain ⟨fs', hfs'⟩ := bangUpdate_ok_of_walkRead_some (actingUserOf st asUser)
        (fun c => c.withPermissions (some mode))
        ((jsSplit '/' (resolvePath (homePath st) st.currentPath path)).filter
          (fun p => p != ""))
        st.fileSystem n hwalk
      refine ⟨fs', ?_⟩
      unfold chmod
      dsimp only
      rw [hn]
      dsimp only
      rw [hown]
      simp only [Bool.false_eq_true, if_false, hoct', if_pos hlen]
      rw [hfs']
      rfl

theorem chmod_authority_and_modes_witness :
    chmod stSticky "/tmp/a.txt" "rwx" (some "alice") = .ok (false, stSticky)
    ∧ ∃ fs', chmod stSticky "/tmp/a.txt" "755" (some "alice")
        = .ok (true, { stSticky with fileSystem := fs' }) := by
  refine ⟨(chmod_authority_and_modes stSticky "/tmp/a.txt" "rwx" (some "alice")).2.1
      (by decide) (by decide),
    (chmod_authority_and_modes stSticky "/tmp/a.txt" "755" (some "alice")).2.2 aTxt
      rfl (Or.inr (by decide)) (Or.inl (by decide)) rfl⟩

theorem except_map_ok {α β γ : Type} (f : α → β) (r : Except γ α) (b : β)
    (hr : r.map f = .ok b) : ∃ a, r = .ok a ∧ f a = b := by
  cases r with
  | error e => simp [Except.map] at hr
  | ok a => exact ⟨a, rfl, by simpa [Except.map] using hr⟩

theorem applyPasswdSync_users_disj (st : FSState) (r c : String) :
    (applyPasswdSync st r c).users = st.users
    ∨ (parsePasswd c = .ok (applyPasswdSync st r c).users
       ∧ (applyPasswdSync st r c).users ≠ st.users) := by
  unfold applyPasswdSync
  split
  · split
    · rename_i u hu
      split
      · rename_i hne
        exact Or.inr ⟨hu, hne⟩
      · exact Or.inl rfl
    · exact Or.inl rfl
  · exact Or.inl rfl

theorem applyPasswdSync_groups_eq (st : FSState) (r c : String) :
    (applyPasswdSync st r c).groups = st.groups := by
  unfold applyPasswdSync
  split
  · split
    · split <;> rfl
    · rfl
  · rfl

theorem applyGroupSync_groups_disj (st : FSState) (r c : String) :
    (applyGroupSync st r c).groups = st.groups
    ∨ (parseGroup c = .ok (applyGroupSync st r c).groups
       ∧ (applyGroupSync st r c).groups ≠ st.groups) := by
  unfold applyGroupSync
  split
  · split
    · rename_i g hg
      split
      · rename_i hne
        exact Or.inr ⟨hg, hne⟩
      · exact Or.inl rfl
    · exact Or.inl rfl
  · exact Or.inl rfl

theorem applyGroupSync_users_eq (st : FSState) (r c : String) :
    (applyGroupSync st r c).users = st.users := by
  unfold applyGroupSync
  split
  · split
    · split <;> rfl
    · rfl
  · rfl

/-- C9: both directions of the bidirectional identity sync carry a
change-detection guard.  When the `/etc/passwd` (resp. `/etc/group`) node
already holds the serialization of the in-memory users (groups), the
identity-to-file sync returns the state — the previous tree reference and
the node's `modified` time — unchanged; and any `writeFile` changes the
in-memory users (groups) only to a successful parse of the written content
that differs from the current records. -/
theorem identity_sync_guards (st : FSState) (newId : String) (now : Nat) :
    (∀ rootCh etc etcCh passwd,
      st.fileSystem.children = some rootCh →
      rootCh.find? (fun c => c.name == "etc") = some etc →
      etc.children = some etcCh →
      etcCh.find? (fun c => c.name == "passwd") = some passwd →
      passwd.content = some (formatPasswd st.users) →
      syncUsersToFS st newId now = st)
    ∧ (∀ rootCh etc etcCh groupFile,
      st.fileSystem.children = some rootCh →
      rootCh.find? (fun c => c.name == "etc") = some etc →
      etc.children = some etcCh →
      etcCh.find? (fun c => c.name == "group") = some groupFile →
      groupFile.content = some (formatGroup st.groups) →
      syncGroupsToFS st newId now = st)
    ∧ (∀ path content asUser b st',
      writeFile st path content asUser now = .ok (b, st') →
      (st'.users = st.users
        ∨ (parsePasswd content = .ok st'.users ∧ st'.users ≠ st.users)))
    ∧ (∀ path content asUser b st',
      writeFile st path content asUser now = .ok (b, st') →
      (st'.groups = st.groups
        ∨ (parseGroup content = .ok st'.groups ∧ st'.groups ≠ st.groups))) := by
  refine ⟨?_, ?_, ?_, ?_⟩
  · intro rootCh etc etcCh passwd h1 h2 h3 h4 h5
    unfold syncUsersToFS
    dsimp only
    rw [h1]
    dsimp only
    rw [h2]
    dsimp only
    rw [h3]
    dsimp only
    rw [h4]
    dsimp only
    rw [h5]
    simp
  · intro rootCh etc etcCh groupFile h1 h2 h3 h4 h5
    unfold syncGroupsToFS
    dsimp only
    rw [h1]
    dsimp only
    rw [h2]
    dsimp only
    rw [h3]
    dsimp only
    rw [h4]
    dsimp only
    rw [h5]
    simp
  · intro path content asUser b st' h
    unfold writeFile at h
    dsimp only at h
    split at h
    · simp only [Except.ok.injEq, Prod.mk.injEq] at h
      exact Or.inl (by rw [← h.2])
    · obtain ⟨newFS, _, hf⟩ := except_map_ok _ _ _ h
      have hst : st' = applyGroupSync (applyPasswdSync { st with fileSystem := newFS }
          (resolvePath (homePath st) st.currentPath path) content)
          (resolvePath (homePath st) st.currentPath path) content := by
        have := (Prod.mk.injEq _ _ _ _).mp hf
        exact this.2.symm
      rw [hst, applyGroupSync_users_eq]
      exact applyPasswdSync_users_disj _ _ _
  · intro path content asUser b st' h
    unfold writeFile at h
    dsimp only at h
    split at h
    · simp only [Except.ok.injEq, Prod.mk.injEq] at h
      exact Or.inl (by rw [← h.2])
    · obtain ⟨newFS, _, hf⟩ := except_map_ok _ _ _ h
      have hst : st' = applyGroupSync (applyPasswdSync { st with fileSystem := newFS }
          (resolvePath (homePath st) st.currentPath path) content)
          (resolvePath (homePath st) st.currentPath path) content := by
        have := (Prod.mk.injEq _ _ _ _).mp hf
        exact this.2.symm
      rw [hst]
      rcases applyGroupSync_groups_disj (applyPasswdSync { st with fileSystem := newFS }
          (resolvePath (homePath st) st.currentPath path) content)
          (resolvePath (homePath st) st.currentPath path) content with hg | hg
      · rw [hg, applyPasswdSync_groups_eq]
        exact Or.inl rfl
      · rw [applyPasswdSync_groups_eq] at hg
        exact Or.inr hg

set_option maxHeartbeats 2000000 in
theorem identity_sync_guards_witness :
    syncUsersToFS stEtc "id7" 0 = stEtc
    ∧ syncGroupsToFS stEtc "id7" 0 = stEtc
    ∧ (stEtc.users = stEtc.users
        ∨ (parsePasswd (formatPasswd usersEtc) = .ok stEtc.users
           ∧ stEtc.users ≠ stEtc.users))
    ∧ (stEtc.groups = stEtc.groups
        ∨ (parseGroup (formatGroup groupsEtc) = .ok stEtc.groups
           ∧ stEtc.groups ≠ stEtc.groups)) := by
  have h := identity_sync_guards stEtc "id7" 0
  refine ⟨h.1 [etcDir] etcDir [passwdNode, groupNode] passwdNode rfl rfl rfl rfl rfl,
    h.2.1 [etcDir] etcDir [passwdNode, groupNode] groupNode rfl rfl rfl rfl rfl,
    h.2.2.1 "/etc/passwd" (formatPasswd usersEtc) none true stEtc (by rfl),
    h.2.2.2 "/etc/group" (formatGroup groupsEtc) none true stEtc (by rfl)⟩

end Aurora
